import Mathlib

/-!
Request-scoped database transaction bound to a context (go-transactions):
shallow embedding of `context.go` and `transaction.go`.

* A `*transaction` is `none` (the nil pointer) or `some a`, an address into
  `World.heap`; dereferencing nil panics.
* The database (`database/sql` and the driver behind it) is an external
  collaborator: every operation the code performs on it is appended to
  `World.calls`, and its answer is read from a `Driver`, a deterministic
  oracle that sees the operations performed so far.
* `go callback()` appends the callback to `World.spawned`; the body of the
  goroutine is not run by the model.
* `glog` output is appended to `World.log`.
* A Go call either returns or panics: `Outcome`.
-/

namespace GoTransactions

/-- Identity of an open `*sql.Tx`. -/
abbrev Handle := Nat

/-- Identity of a non-nil `func()` value. -/
abbrev Callback := Nat

/-- Error values: the two errors built with `errors.Errorf` in the source, and
errors handed back by the database. -/
inductive Err where
  | noTransaction
  | dbExists
  | driver (code : Nat)
  deriving DecidableEq, Repr

/-- Keys of context values: `transactionKey` (the only constant of the private
type `contextKey`) and every other key. -/
inductive Key where
  | transactionKey
  | other (n : Nat)
  deriving DecidableEq, Repr

/-- Values stored in a context: a `*transaction` (nil or an address) or
anything else. -/
inductive Value where
  | tx (p : Option Nat)
  | other (n : Nat)
  deriving DecidableEq, Repr

/-- A non-nil `context.Context`: the background context or a `WithValue` layer.
The nil interface value is `none : Option Context`. -/
inductive Context where
  | background
  | withValue (parent : Context) (key : Key) (val : Value)
  deriving DecidableEq, Repr

/-- Lookup `ctx.Value(key)`: the innermost layer with an equal key wins, the
background context has no values. -/
def Context.Value : Context → Key → Option Value
  | .background, _ => none
  | .withValue parent k v, key => if k = key then some v else parent.Value key

/-- Whether `ctx.Value(transactionKey)` is a `*transaction`, the `ok` of the type
assertion in `getTransaction`. -/
def Context.carriesTransaction (ctx : Context) : Bool :=
  match ctx.Value .transactionKey with
  | some (.tx _) => true
  | _ => false

/-- The struct `transaction`. -/
structure transaction where
  tx : Handle
  rollback : Bool
  postCommitCallbacks : List (Option Callback)
  postRollbackCallbacks : List (Option Callback)
  deriving DecidableEq, Repr

/-- Operations performed on the database resource. -/
inductive DbCall where
  | sqlOpen (connStr : String)
  | dbBegin (d : Nat)
  | txCommit (h : Handle)
  | txRollback (h : Handle)
  | dbQuery (d : Nat)
  | rowsClose (r : Nat)
  | dbClose (d : Nat)
  deriving DecidableEq, Repr

/-- Lines written through `glog`. -/
inductive LogLine where
  | resolveNoTx (e : Err)
  | rollbackFailed (e : Err)
  | rolledBack
  | commitFailed (e : Err)
  | markFailed (e : Err)
  | marked
  deriving DecidableEq, Repr

/-- Process state: the global `db`, the allocated transaction records, the
operations performed on the database, the goroutines started, the log. -/
structure World where
  db : Option Nat
  heap : List transaction
  calls : List DbCall
  spawned : List Callback
  log : List LogLine
  deriving DecidableEq, Repr

/-- Answers of the database, each a function of the operations performed before. -/
structure Driver where
  sqlOpen : List DbCall → String → Option Nat × Option Err
  dbBegin : List DbCall → Nat → Except Err Handle
  txCommit : List DbCall → Handle → Option Err
  txRollback : List DbCall → Handle → Option Err
  dbQuery : List DbCall → Nat → Except Err Nat
  dbClose : List DbCall → Nat → Option Err

/-- Result of running a Go function: it returns a value, or it panics. -/
inductive Outcome (α : Type) where
  | ret (val : α) (w : World)
  | panic (w : World)
  deriving DecidableEq, Repr

/-- State in which a call ended. -/
def Outcome.world {α : Type} : Outcome α → World
  | .ret _ w => w
  | .panic w => w

def World.call (w : World) (c : DbCall) : World :=
  { w with calls := w.calls ++ [c] }

def World.logged (w : World) (l : LogLine) : World :=
  { w with log := w.log ++ [l] }

/-- Read through a `*transaction`; `none` when the pointer is nil. -/
def World.deref (w : World) : Option Nat → Option transaction
  | none => none
  | some a => w.heap[a]?

/-- Write through a `*transaction` that was read successfully. -/
def World.store (w : World) (p : Option Nat) (t : transaction) : World :=
  match p with
  | none => w
  | some a => { w with heap := w.heap.set a t }

def defaultRollbackPolicy : Bool := false

/-- Function `new` of transaction.go. -/
def new (D : Driver) (w : World) : Outcome (Option Nat × Option Err) :=
  match w.db with
  | none => .panic w
  | some d =>
    let w1 := w.call (.dbBegin d)
    match D.dbBegin w.calls d with
    | .error err => .ret (none, some err) w1
    | .ok tx =>
      .ret (some w1.heap.length, none)
        { w1 with heap := w1.heap ++ [⟨tx, defaultRollbackPolicy, [], []⟩] }

/-- Function `NewContext`. `context.WithValue` panics on a nil parent. -/
def NewContext (D : Driver) (ctx : Option Context) (w : World) :
    Outcome (Option Context × Option Err) :=
  match new D w with
  | .panic w1 => .panic w1
  | .ret (_, some err) w1 => .ret (none, some err) w1
  | .ret (tx, none) w1 =>
    match ctx with
    | none => .panic w1
    | some c => .ret (some (.withValue c .transactionKey (.tx tx)), none) w1

/-- Function `getTransaction`: the type assertion on `ctx.Value(transactionKey)`.
Calling `Value` on a nil context panics. -/
def getTransaction (ctx : Option Context) (w : World) : Outcome (Option Nat × Option Err) :=
  match ctx with
  | none => .panic w
  | some c =>
    match c.Value .transactionKey with
    | some (.tx p) => .ret (p, none) w
    | _ => .ret (none, some .noTransaction) w

/-- Function `FromContext`. -/
def FromContext (ctx : Option Context) (w : World) : Outcome (Option Handle × Option Err) :=
  match getTransaction ctx w with
  | .panic w1 => .panic w1
  | .ret (_, some err) w1 => .ret (none, some err) w1
  | .ret (p, none) w1 =>
    match w1.deref p with
    | none => .panic w1
    | some t => .ret (some t.tx, none) w1

/-- The loop `for _, callback := range cbs { if callback != nil { go callback() } }`. -/
def dispatch : List (Option Callback) → World → World
  | [], w => w
  | none :: cbs, w => dispatch cbs w
  | some f :: cbs, w => dispatch cbs { w with spawned := w.spawned ++ [f] }

/-- Function `commit`. -/
def commit (D : Driver) (ctx : Option Context) (w : World) : Outcome (Option Err) :=
  match getTransaction ctx w with
  | .panic w1 => .panic w1
  | .ret (_, some err) w1 => .ret (some err) w1
  | .ret (p, none) w1 =>
    match w1.deref p with
    | none => .panic w1
    | some t =>
      let w2 := w1.call (.txCommit t.tx)
      match D.txCommit w1.calls t.tx with
      | some err => .ret (some err) w2
      | none => .ret none (dispatch t.postCommitCallbacks w2)

/-- Function `rollback`. -/
def rollback (D : Driver) (ctx : Option Context) (w : World) : Outcome (Option Err) :=
  match getTransaction ctx w with
  | .panic w1 => .panic w1
  | .ret (_, some err) w1 => .ret (some err) w1
  | .ret (p, none) w1 =>
    match w1.deref p with
    | none => .panic w1
    | some t =>
      let w2 := w1.call (.txRollback t.tx)
      match D.txRollback w1.calls t.tx with
      | some err => .ret (some err) w2
      | none => .ret none (dispatch t.postRollbackCallbacks w2)

/-- Function `Resolve`. -/
def Resolve (D : Driver) (ctx : Option Context) (w : World) : Outcome (Option Err) :=
  match getTransaction ctx w with
  | .panic w1 => .panic w1
  | .ret (_, some err) w1 => .ret (some err) (w1.logged (.resolveNoTx err))
  | .ret (p, none) w1 =>
    match w1.deref p with
    | none => .panic w1
    | some t =>
      if t.rollback then
        match rollback D ctx w1 with
        | .panic w2 => .panic w2
        | .ret (some err) w2 => .ret (some err) (w2.logged (.rollbackFailed err))
        | .ret none w2 => .ret none (w2.logged .rolledBack)
      else
        match commit D ctx w1 with
        | .panic w2 => .panic w2
        | .ret (some err) w2 => .ret (some err) (w2.logged (.commitFailed err))
        | .ret none w2 => .ret none w2

/-- Function `MarkForRollback`. -/
def MarkForRollback (ctx : Option Context) (w : World) : Outcome Unit :=
  match getTransaction ctx w with
  | .panic w1 => .panic w1
  | .ret (_, some err) w1 => .ret () (w1.logged (.markFailed err))
  | .ret (p, none) w1 =>
    let w2 := w1.logged .marked
    match w2.deref p with
    | none => .panic w2
    | some t => .ret () (w2.store p { t with rollback := true })

/-- Function `AddPostCommitCallback`; a nil `callback` is `none`. -/
def AddPostCommitCallback (ctx : Option Context) (callback : Option Callback) (w : World) :
    Outcome (Option Err) :=
  match getTransaction ctx w with
  | .panic w1 => .panic w1
  | .ret (_, some err) w1 => .ret (some err) w1
  | .ret (p, none) w1 =>
    match w1.deref p with
    | none => .panic w1
    | some t =>
      .ret none (w1.store p { t with postCommitCallbacks := t.postCommitCallbacks ++ [callback] })

/-- Function `AddPostRollbackCallback`; a nil `callback` is `none`. -/
def AddPostRollbackCallback (ctx : Option Context) (callback : Option Callback) (w : World) :
    Outcome (Option Err) :=
  match getTransaction ctx w with
  | .panic w1 => .panic w1
  | .ret (_, some err) w1 => .ret (some err) w1
  | .ret (p, none) w1 =>
    match w1.deref p with
    | none => .panic w1
    | some t =>
      .ret none
        (w1.store p { t with postRollbackCallbacks := t.postRollbackCallbacks ++ [callback] })

/-- Function `InitDB`: the result of `sql.Open` is assigned to the global `db`
whatever the error is. -/
def InitDB (D : Driver) (connStr : String) (w : World) : Outcome (Option Err) :=
  match w.db with
  | some _ => .ret (some .dbExists) w
  | none =>
    let r := D.sqlOpen w.calls connStr
    .ret r.2 { w.call (.sqlOpen connStr) with db := r.1 }

/-- Function `CheckConnection`. The deferred `Resolve(ctx)` and `rows.Close()`
run when the function returns, last deferred first, and their results are
dropped; the query goes to the global `db`. -/
def CheckConnection (D : Driver) (w : World) : Outcome (Option Err) :=
  match NewContext D (some .background) w with
  | .panic w1 => .panic w1
  | .ret (_, some err) w1 => .ret (some err) w1
  | .ret (ctx, none) w1 =>
    match w1.db with
    | none => .panic (Resolve D ctx w1).world
    | some d =>
      let w2 := w1.call (.dbQuery d)
      match D.dbQuery w1.calls d with
      | .error err =>
        match Resolve D ctx w2 with
        | .panic w3 => .panic w3
        | .ret _ w3 => .ret (some err) w3
      | .ok rows =>
        match Resolve D ctx (w2.call (.rowsClose rows)) with
        | .panic w3 => .panic w3
        | .ret _ w3 => .ret none w3

/-- Function `Close`. -/
def Close (D : Driver) (w : World) : Outcome (Option Err) :=
  match w.db with
  | none => .panic w
  | some d => .ret (D.dbClose w.calls d) (w.call (.dbClose d))

/-- Two consecutive calls of `Resolve` on one context, with both results. -/
def resolveTwice (D : Driver) (ctx : Option Context) (w : World) :
    Outcome (Option Err × Option Err) :=
  match Resolve D ctx w with
  | .panic w1 => .panic w1
  | .ret r1 w1 =>
    match Resolve D ctx w1 with
    | .panic w2 => .panic w2
    | .ret r2 w2 => .ret (r1, r2) w2

/-- A number of consecutive calls of `MarkForRollback` on one context. -/
def markTimes : Nat → Option Context → World → Outcome Unit
  | 0, _, w => .ret () w
  | n + 1, ctx, w =>
    match MarkForRollback ctx w with
    | .panic w1 => .panic w1
    | .ret _ w1 => markTimes n ctx w1

/-- Number of `Commit` and `Rollback` invocations on handle `h` in a list of
database operations. -/
def invocations (h : Handle) (cs : List DbCall) : Nat :=
  cs.countP (fun c => c == .txCommit h || c == .txRollback h)

/-- The commit or rollback operation that the flag of a record selects. -/
def resolution (t : transaction) : DbCall :=
  if t.rollback then .txRollback t.tx else .txCommit t.tx

/-- Answer of the database to the operation that the flag selects. -/
def Driver.resolve (D : Driver) (cs : List DbCall) (t : transaction) : Option Err :=
  if t.rollback then D.txRollback cs t.tx else D.txCommit cs t.tx

/-- The callback list that the flag of a record selects. -/
def matchingCallbacks (t : transaction) : List (Option Callback) :=
  if t.rollback then t.postRollbackCallbacks else t.postCommitCallbacks

/-! Concrete drivers, contexts and states used to exercise the theorems. -/

/-- A database that accepts everything, except that a handle already committed
or rolled back answers error 1, as `sql.Tx` does with `ErrTxDone`. -/
def sqlTxDriver : Driver where
  sqlOpen := fun _ _ => (some 0, none)
  dbBegin := fun cs _ => .ok cs.length
  txCommit := fun cs h =>
    if DbCall.txCommit h ∈ cs ∨ DbCall.txRollback h ∈ cs then some (.driver 1) else none
  txRollback := fun cs h =>
    if DbCall.txCommit h ∈ cs ∨ DbCall.txRollback h ∈ cs then some (.driver 1) else none
  dbQuery := fun _ _ => .ok 0
  dbClose := fun _ _ => none

/-- A database that rejects every commit and rollback with error 2. -/
def rejectingDriver : Driver where
  sqlOpen := fun _ _ => (some 0, none)
  dbBegin := fun cs _ => .ok cs.length
  txCommit := fun _ _ => some (.driver 2)
  txRollback := fun _ _ => some (.driver 2)
  dbQuery := fun _ _ => .ok 0
  dbClose := fun _ _ => none

/-- A context carrying the record at address 0, below a value under another key. -/
def ctxBound : Context :=
  .withValue (.withValue .background .transactionKey (.tx (some 0))) (.other 5) (.other 9)

/-- A context without a record. -/
def ctxFree : Context :=
  .withValue .background (.other 5) (.other 9)

/-- An unflagged record with callbacks 11 and 12 after commit (and a nil entry
between them) and callback 21 after rollback. -/
def recOpen : transaction :=
  ⟨7, false, [some 11, none, some 12], [some 21, none]⟩

/-- The same record flagged for rollback. -/
def recFlagged : transaction :=
  ⟨7, true, [some 11, none, some 12], [some 21, none]⟩

def worldOpen : World :=
  ⟨some 0, [recOpen], [.dbBegin 0], [], []⟩

def worldFlagged : World :=
  ⟨some 0, [recFlagged], [.dbBegin 0], [], []⟩

/-- State after `InitDB`, before any transaction. -/
def worldIdle : World :=
  ⟨some 0, [], [], [], []⟩

/-- The context that `NewContext` builds on the background context in `worldIdle`. -/
def ctxFresh : Context :=
  .withValue .background .transactionKey (.tx (some 0))

/-- The state that `NewContext` with `sqlTxDriver` leaves when started in `worldIdle`. -/
def worldFresh : World :=
  ⟨some 0, [⟨0, false, [], []⟩], [.dbBegin 0], [], []⟩

/-- Context derived from `c` by `context.WithValue` layers under keys other
than `transactionKey`, the first pair of the list innermost. -/
def Context.derive (c : Context) : List (Nat × GoTransactions.Value) → Context
  | [] => c
  | (k, v) :: kvs => (Context.withValue c (.other k) v).derive kvs

/-- The `*transaction` values attached under `transactionKey` along the lineage
of a context, innermost first. -/
def Context.records : Context → List (Option Nat)
  | .background => []
  | .withValue parent .transactionKey (.tx p) => p :: parent.records
  | .withValue parent _ _ => parent.records

/-- A database that can neither be opened (error 4) nor begin a transaction
(error 3). -/
def unavailableDriver : Driver where
  sqlOpen := fun _ _ => (none, some (.driver 4))
  dbBegin := fun _ _ => .error (.driver 3)
  txCommit := fun _ _ => none
  txRollback := fun _ _ => none
  dbQuery := fun _ _ => .ok 0
  dbClose := fun _ _ => none

/-- State of the process before `InitDB`. -/
def worldEmpty : World :=
  ⟨none, [], [], [], []⟩

/-- State left by a `NewContext` whose begin failed in `worldIdle`. -/
def worldBeginFailed : World :=
  ⟨some 0, [], [.dbBegin 0], [], []⟩

/-- The context that a second `NewContext`, applied to `ctxFresh`, builds. -/
def ctxNested : Context :=
  .withValue ctxFresh .transactionKey (.tx (some 1))

/-- The state that this second `NewContext` leaves when started in `worldFresh`. -/
def worldNested : World :=
  ⟨some 0, [⟨0, false, [], []⟩, ⟨1, false, [], []⟩], [.dbBegin 0, .dbBegin 0], [], []⟩

/-- State in which `CheckConnection` with `rejectingDriver`, started in
`worldIdle`, ends: the commit was attempted and its failure only logged. -/
def worldChecked : World :=
  ⟨some 0, [⟨0, false, [], []⟩], [.dbBegin 0, .dbQuery 0, .rowsClose 0, .txCommit 0], [],
    [.commitFailed (.driver 2)]⟩

/-! ## Helper lemmas -/

theorem getTransaction_some (ctx : Context) (w : World) (p : Option Nat)
    (hctx : ctx.Value .transactionKey = some (.tx p)) :
    getTransaction (some ctx) w = .ret (p, none) w := by
  simp [getTransaction, hctx]

theorem getTransaction_none (ctx : Context) (w : World)
    (hno : ctx.carriesTransaction = false) :
    getTransaction (some ctx) w = .ret (none, some .noTransaction) w := by
  cases h : ctx.Value .transactionKey with
  | none => simp [getTransaction, h]
  | some v =>
    cases v with
    | tx p => simp [Context.carriesTransaction, h] at hno
    | other n => simp [getTransaction, h]

theorem dispatch_eq (cbs : List (Option Callback)) (w : World) :
    dispatch cbs w = { w with spawned := w.spawned ++ cbs.reduceOption } := by
  induction cbs generalizing w with
  | nil => simp [dispatch]
  | cons c cbs ih =>
    cases c with
    | none => simp [dispatch, ih]
    | some f => simp [dispatch, ih]

theorem commit_bound (D : Driver) (ctx : Context) (w : World) (p : Nat) (t : transaction)
    (hctx : ctx.Value .transactionKey = some (.tx (some p))) (hrec : w.heap[p]? = some t) :
    commit D (some ctx) w =
      match D.txCommit w.calls t.tx with
      | some err => .ret (some err) (w.call (.txCommit t.tx))
      | none => .ret none (dispatch t.postCommitCallbacks (w.call (.txCommit t.tx))) := by
  simp [commit, getTransaction_some ctx w _ hctx, World.deref, hrec]

theorem rollback_bound (D : Driver) (ctx : Context) (w : World) (p : Nat) (t : transaction)
    (hctx : ctx.Value .transactionKey = some (.tx (some p))) (hrec : w.heap[p]? = some t) :
    rollback D (some ctx) w =
      match D.txRollback w.calls t.tx with
      | some err => .ret (some err) (w.call (.txRollback t.tx))
      | none => .ret none (dispatch t.postRollbackCallbacks (w.call (.txRollback t.tx))) := by
  simp [rollback, getTransaction_some ctx w _ hctx, World.deref, hrec]

/-- Resolve on a bound context, in one equation: one operation on the handle,
then either the error of the database or the dispatch of the matching list. -/
theorem Resolve_bound (D : Driver) (ctx : Context) (w : World) (p : Nat) (t : transaction)
    (hctx : ctx.Value .transactionKey = some (.tx (some p))) (hrec : w.heap[p]? = some t) :
    Resolve D (some ctx) w =
      match D.resolve w.calls t with
      | some err =>
        .ret (some err) ((w.call (resolution t)).logged
          (if t.rollback then .rollbackFailed err else .commitFailed err))
      | none =>
        .ret none
          { w with
            calls := w.calls ++ [resolution t]
            spawned := w.spawned ++ (matchingCallbacks t).reduceOption
            log := if t.rollback then w.log ++ [.rolledBack] else w.log } := by
  unfold Resolve
  simp only [getTransaction_some ctx w _ hctx, World.deref, hrec]
  cases hflag : t.rollback with
  | true =>
    simp only [if_true, rollback_bound D ctx w p t hctx hrec, Driver.resolve, resolution,
      matchingCallbacks, hflag]
    cases D.txRollback w.calls t.tx with
    | none => simp [dispatch_eq, World.call, World.logged]
    | some err => simp
  | false =>
    simp only [commit_bound D ctx w p t hctx hrec, Driver.resolve, resolution,
      matchingCallbacks, hflag]
    cases D.txCommit w.calls t.tx with
    | none => simp [dispatch_eq, World.call]
    | some err => simp

theorem Resolve_unbound (D : Driver) (ctx : Context) (w : World)
    (hno : ctx.carriesTransaction = false) :
    Resolve D (some ctx) w =
      .ret (some .noTransaction) (w.logged (.resolveNoTx .noTransaction)) := by
  simp [Resolve, getTransaction_none ctx w hno]

/-- Resolve on a bound context returns the answer of the database to the one
operation it performs, and leaves the records and the global `db` as they were. -/
theorem Resolve_bound_frame (D : Driver) (ctx : Context) (w : World) (p : Nat) (t : transaction)
    (hctx : ctx.Value .transactionKey = some (.tx (some p))) (hrec : w.heap[p]? = some t) :
    ∃ w1, Resolve D (some ctx) w = .ret (D.resolve w.calls t) w1 ∧
      w1.heap = w.heap ∧ w1.calls = w.calls ++ [resolution t] ∧ w1.db = w.db := by
  rw [Resolve_bound D ctx w p t hctx hrec]
  cases D.resolve w.calls t with
  | none => exact ⟨_, rfl, rfl, rfl, rfl⟩
  | some err => exact ⟨_, rfl, rfl, rfl, rfl⟩

theorem MarkForRollback_bound (ctx : Context) (w : World) (p : Nat) (t : transaction)
    (hctx : ctx.Value .transactionKey = some (.tx (some p))) (hrec : w.heap[p]? = some t) :
    MarkForRollback (some ctx) w =
      .ret () { w with
        heap := w.heap.set p { t with rollback := true }
        log := w.log ++ [.marked] } := by
  simp [MarkForRollback, getTransaction_some ctx w _ hctx, World.deref, World.logged, hrec,
    World.store]

theorem MarkForRollback_unbound (ctx : Context) (w : World)
    (hno : ctx.carriesTransaction = false) :
    MarkForRollback (some ctx) w = .ret () (w.logged (.markFailed .noTransaction)) := by
  simp [MarkForRollback, getTransaction_none ctx w hno]

theorem heap_set_lookup (heap : List transaction) (p : Nat) (t t' : transaction)
    (hrec : heap[p]? = some t) : (heap.set p t')[p]? = some t' := by
  have hlt : p < heap.length := by
    rcases List.getElem?_eq_some_iff.mp hrec with ⟨h, _⟩
    exact h
  simp [List.getElem?_set, hlt]

/-- Repeated flagging of a bound record: the calls return, the record is flagged
as soon as there is one call, and nothing else changes but the log. -/
theorem markTimes_bound (ctx : Context) (p : Nat)
    (hctx : ctx.Value .transactionKey = some (.tx (some p))) (n : Nat) :
    ∀ (w : World) (t : transaction), w.heap[p]? = some t →
      ∃ w2, markTimes n (some ctx) w = .ret () w2 ∧
        w2.heap = (if n = 0 then w.heap else w.heap.set p { t with rollback := true }) ∧
        w2.calls = w.calls ∧ w2.spawned = w.spawned ∧ w2.db = w.db := by
  induction n with
  | zero => intro w t _; exact ⟨w, rfl, by simp, rfl, rfl, rfl⟩
  | succ n ih =>
    intro w t hrec
    have h1 := heap_set_lookup w.heap p t { t with rollback := true } hrec
    obtain ⟨w2, hw2, hheap, hcalls, hspawned, hdb⟩ :=
      ih { w with heap := w.heap.set p { t with rollback := true }, log := w.log ++ [.marked] }
        { t with rollback := true } h1
    refine ⟨w2, ?_, ?_, hcalls, hspawned, hdb⟩
    · simp only [markTimes, MarkForRollback_bound ctx w p t hctx hrec]
      exact hw2
    · rw [hheap]
      by_cases hn : n = 0 <;> simp [hn]

/-- A successful `NewContext`: the database began a transaction, the record is
allocated at the end of the heap with the default flag and no callbacks, and the
context is the parent with the record under `transactionKey`. -/
theorem NewContext_ok (D : Driver) (parent : Option Context) (w w1 : World) (c : Option Context)
    (hnew : NewContext D parent w = .ret (c, none) w1) :
    ∃ d h c0, w.db = some d ∧ D.dbBegin w.calls d = .ok h ∧ parent = some c0 ∧
      c = some (.withValue c0 .transactionKey (.tx (some w.heap.length))) ∧
      w1 = { w with
        calls := w.calls ++ [.dbBegin d]
        heap := w.heap ++ [⟨h, false, [], []⟩] } := by
  unfold NewContext new at hnew
  cases hdb : w.db with
  | none => simp [hdb] at hnew
  | some d =>
    cases hb : D.dbBegin w.calls d with
    | error err => simp [hdb, hb] at hnew
    | ok h =>
      cases parent with
      | none => simp [hdb, hb] at hnew
      | some c0 =>
        simp [hdb, hb, World.call, defaultRollbackPolicy] at hnew
        exact ⟨d, h, c0, rfl, hb, rfl, hnew.1.symm, hnew.2.symm⟩

theorem AddPostCommitCallback_bound (ctx : Context) (w : World) (p : Nat) (t : transaction)
    (f : Option Callback)
    (hctx : ctx.Value .transactionKey = some (.tx (some p))) (hrec : w.heap[p]? = some t) :
    AddPostCommitCallback (some ctx) f w =
      .ret none { w with
        heap := w.heap.set p { t with postCommitCallbacks := t.postCommitCallbacks ++ [f] } } := by
  simp [AddPostCommitCallback, getTransaction_some ctx w _ hctx, World.deref, hrec, World.store]

theorem AddPostRollbackCallback_bound (ctx : Context) (w : World) (p : Nat) (t : transaction)
    (f : Option Callback)
    (hctx : ctx.Value .transactionKey = some (.tx (some p))) (hrec : w.heap[p]? = some t) :
    AddPostRollbackCallback (some ctx) f w =
      .ret none { w with
        heap := w.heap.set p
          { t with postRollbackCallbacks := t.postRollbackCallbacks ++ [f] } } := by
  simp [AddPostRollbackCallback, getTransaction_some ctx w _ hctx, World.deref, hrec,
    World.store]

/-! ## Resolve -/

/-- C1: on a context bound to a record, Resolve returns and performs exactly one
operation on the database: a rollback of the record's handle (and no commit)
when the flag is true, a commit of the handle (and no rollback) when it is
false. -/
theorem Resolve_invokes_one_operation (D : Driver) (ctx : Context) (w : World) (p : Nat)
    (t : transaction)
    (hctx : ctx.Value .transactionKey = some (.tx (some p))) (hrec : w.heap[p]? = some t) :
    ∃ r w', Resolve D (some ctx) w = .ret r w' ∧
      (t.rollback = true → w'.calls = w.calls ++ [.txRollback t.tx]) ∧
      (t.rollback = false → w'.calls = w.calls ++ [.txCommit t.tx]) := by
  rw [Resolve_bound D ctx w p t hctx hrec]
  cases D.resolve w.calls t with
  | none =>
    refine ⟨_, _, rfl, ?_, ?_⟩ <;> intro h <;> simp [resolution, h]
  | some err =>
    refine ⟨_, _, rfl, ?_, ?_⟩ <;> intro h <;> simp [resolution, h, World.call, World.logged]

theorem Resolve_invokes_one_operation_witness :
    (ctxBound.Value .transactionKey = some (.tx (some 0)) ∧
      worldFlagged.heap[0]? = some recFlagged) ∧
    ∃ r w', Resolve sqlTxDriver (some ctxBound) worldFlagged = .ret r w' ∧
      (recFlagged.rollback = true →
        w'.calls = worldFlagged.calls ++ [.txRollback recFlagged.tx]) ∧
      (recFlagged.rollback = false →
        w'.calls = worldFlagged.calls ++ [.txCommit recFlagged.tx]) :=
  ⟨⟨by decide, by decide⟩,
    Resolve_invokes_one_operation sqlTxDriver ctxBound worldFlagged 0 recFlagged
      (by decide) (by decide)⟩

/-- C2: on a bound context, when the commit (flag false) or the rollback (flag
true) of the handle succeeds, Resolve returns nil and the goroutines it starts
are exactly the non-nil entries of the matching callback list, one per entry;
nil entries are passed over. -/
theorem Resolve_success_dispatches_matching (D : Driver) (ctx : Context) (w : World) (p : Nat)
    (t : transaction)
    (hctx : ctx.Value .transactionKey = some (.tx (some p))) (hrec : w.heap[p]? = some t)
    (hok : (if t.rollback then D.txRollback w.calls t.tx else D.txCommit w.calls t.tx) = none) :
    ∃ w', Resolve D (some ctx) w = .ret none w' ∧
      w'.spawned = w.spawned ++
        (if t.rollback then t.postRollbackCallbacks else t.postCommitCallbacks).reduceOption := by
  have hok' : D.resolve w.calls t = none := hok
  rw [Resolve_bound D ctx w p t hctx hrec, hok']
  exact ⟨_, rfl, rfl⟩

theorem Resolve_success_dispatches_matching_witness :
    (ctxBound.Value .transactionKey = some (.tx (some 0)) ∧
      worldOpen.heap[0]? = some recOpen ∧
      (if recOpen.rollback then sqlTxDriver.txRollback worldOpen.calls recOpen.tx
        else sqlTxDriver.txCommit worldOpen.calls recOpen.tx) = none) ∧
    ∃ w', Resolve sqlTxDriver (some ctxBound) worldOpen = .ret none w' ∧
      w'.spawned = worldOpen.spawned ++
        (if recOpen.rollback then recOpen.postRollbackCallbacks
          else recOpen.postCommitCallbacks).reduceOption :=
  ⟨⟨by decide, by decide, by decide⟩,
    Resolve_success_dispatches_matching sqlTxDriver ctxBound worldOpen 0 recOpen
      (by decide) (by decide) (by decide)⟩

/-- C3: on a bound context, the goroutines started by a Resolve that takes the
commit path are accounted for, one by one, by entries of postCommitCallbacks, so
a callback that is an entry of postRollbackCallbacks only is not dispatched; and
the same with the two lists exchanged on the rollback path. -/
theorem Resolve_dispatches_only_matching (D : Driver) (ctx : Context) (w : World) (p : Nat)
    (t : transaction)
    (hctx : ctx.Value .transactionKey = some (.tx (some p))) (hrec : w.heap[p]? = some t) :
    ∃ started, (Resolve D (some ctx) w).world.spawned = w.spawned ++ started ∧
      (t.rollback = false →
        started.Sublist t.postCommitCallbacks.reduceOption ∧
        ∀ f, some f ∈ t.postRollbackCallbacks → some f ∉ t.postCommitCallbacks →
          f ∉ started) ∧
      (t.rollback = true →
        started.Sublist t.postRollbackCallbacks.reduceOption ∧
        ∀ f, some f ∈ t.postCommitCallbacks → some f ∉ t.postRollbackCallbacks →
          f ∉ started) := by
  have key : ∀ (l : List (Option Callback)) (s : List Callback) (f : Callback),
      s.Sublist l.reduceOption → some f ∉ l → f ∉ s := by
    intro l s f hs hf hmem
    exact hf (List.reduceOption_mem_iff.mp (hs.subset hmem))
  rw [Resolve_bound D ctx w p t hctx hrec]
  cases D.resolve w.calls t with
  | none =>
    refine ⟨(matchingCallbacks t).reduceOption, rfl, ?_, ?_⟩
    · intro h
      have hs : ((matchingCallbacks t).reduceOption).Sublist
          t.postCommitCallbacks.reduceOption := by simp [matchingCallbacks, h]
      exact ⟨hs, fun f _ hf => key _ _ f hs hf⟩
    · intro h
      have hs : ((matchingCallbacks t).reduceOption).Sublist
          t.postRollbackCallbacks.reduceOption := by simp [matchingCallbacks, h]
      exact ⟨hs, fun f _ hf => key _ _ f hs hf⟩
  | some err =>
    refine ⟨[], by simp [Outcome.world, World.call, World.logged], ?_, ?_⟩ <;>
      intro _ <;> simp

theorem Resolve_dispatches_only_matching_witness :
    (ctxBound.Value .transactionKey = some (.tx (some 0)) ∧
      worldOpen.heap[0]? = some recOpen) ∧
    ∃ started,
      (Resolve sqlTxDriver (some ctxBound) worldOpen).world.spawned =
        worldOpen.spawned ++ started ∧
      (recOpen.rollback = false →
        started.Sublist recOpen.postCommitCallbacks.reduceOption ∧
        ∀ f, some f ∈ recOpen.postRollbackCallbacks → some f ∉ recOpen.postCommitCallbacks →
          f ∉ started) ∧
      (recOpen.rollback = true →
        started.Sublist recOpen.postRollbackCallbacks.reduceOption ∧
        ∀ f, some f ∈ recOpen.postCommitCallbacks → some f ∉ recOpen.postRollbackCallbacks →
          f ∉ started) :=
  ⟨⟨by decide, by decide⟩,
    Resolve_dispatches_only_matching sqlTxDriver ctxBound worldOpen 0 recOpen
      (by decide) (by decide)⟩

/-- C4: on a bound context, when the commit (flag false) or the rollback (flag
true) of the handle fails with error e, Resolve returns e itself and starts no
goroutine. -/
theorem Resolve_failure_propagates (D : Driver) (ctx : Context) (w : World) (p : Nat)
    (t : transaction) (e : Err)
    (hctx : ctx.Value .transactionKey = some (.tx (some p))) (hrec : w.heap[p]? = some t)
    (hfail :
      (if t.rollback then D.txRollback w.calls t.tx else D.txCommit w.calls t.tx) = some e) :
    ∃ w', Resolve D (some ctx) w = .ret (some e) w' ∧ w'.spawned = w.spawned := by
  have hfail' : D.resolve w.calls t = some e := hfail
  rw [Resolve_bound D ctx w p t hctx hrec, hfail']
  exact ⟨_, rfl, rfl⟩

theorem Resolve_failure_propagates_witness :
    (ctxBound.Value .transactionKey = some (.tx (some 0)) ∧
      worldFlagged.heap[0]? = some recFlagged ∧
      (if recFlagged.rollback then rejectingDriver.txRollback worldFlagged.calls recFlagged.tx
        else rejectingDriver.txCommit worldFlagged.calls recFlagged.tx) = some (.driver 2)) ∧
    ∃ w', Resolve rejectingDriver (some ctxBound) worldFlagged = .ret (some (.driver 2)) w' ∧
      w'.spawned = worldFlagged.spawned :=
  ⟨⟨by decide, by decide, by decide⟩,
    Resolve_failure_propagates rejectingDriver ctxBound worldFlagged 0 recFlagged (.driver 2)
      (by decide) (by decide) (by decide)⟩

/-- C5, as stated, fails: the nil context that NewContext returns when the
begin fails carries no transaction record, and Resolve on it panics at
`ctx.Value`; it does not return the no-transaction error. -/
theorem Resolve_nil_context_panics :
    NewContext unavailableDriver (some .background) worldIdle =
      .ret (none, some (.driver 3)) worldBeginFailed ∧
    Resolve unavailableDriver none worldBeginFailed = .panic worldBeginFailed ∧
    ¬ ∃ r w1, Resolve unavailableDriver none worldBeginFailed = .ret r w1 := by
  refine ⟨by decide, by decide, ?_⟩
  rintro ⟨r, w1, h⟩
  simp [Resolve, getTransaction] at h

/-- C5, amended: on a non-nil context whose value under transactionKey is not
a transaction record, Resolve returns the no-transaction error, performs no
operation on the database, starts no goroutine and leaves the records and the
global db as they were; on the nil context Resolve panics, in the unchanged
state, so also without any operation on the database or any goroutine. -/
theorem Resolve_without_transaction (D : Driver) (ctx : Context) (w : World)
    (hno : ctx.carriesTransaction = false) :
    (∃ w', Resolve D (some ctx) w = .ret (some .noTransaction) w' ∧
      w'.calls = w.calls ∧ w'.spawned = w.spawned ∧ w'.heap = w.heap ∧ w'.db = w.db) ∧
    Resolve D none w = .panic w := by
  refine ⟨?_, by simp [Resolve, getTransaction]⟩
  rw [Resolve_unbound D ctx w hno]
  exact ⟨_, rfl, rfl, rfl, rfl, rfl⟩

theorem Resolve_without_transaction_witness :
    ctxFree.carriesTransaction = false ∧
    (∃ w', Resolve sqlTxDriver (some ctxFree) worldOpen = .ret (some .noTransaction) w' ∧
      w'.calls = worldOpen.calls ∧ w'.spawned = worldOpen.spawned ∧
      w'.heap = worldOpen.heap ∧ w'.db = worldOpen.db) ∧
    Resolve sqlTxDriver none worldOpen = .panic worldOpen :=
  ⟨by decide, Resolve_without_transaction sqlTxDriver ctxFree worldOpen (by decide)⟩

/-- C6, as stated, fails: with a handle that rejects a second resolution the way
`sql.Tx` does, the second Resolve returns that error, yet the handle has received
two commit invocations over the two calls, not at most one. -/
theorem resolveTwice_second_commit_reaches_handle :
    resolveTwice sqlTxDriver (some ctxBound) worldOpen =
      .ret (none, some (.driver 1))
        ⟨some 0, [recOpen], [.dbBegin 0, .txCommit 7, .txCommit 7], [11, 12],
          [.commitFailed (.driver 1)]⟩ ∧
    invocations 7 (resolveTwice sqlTxDriver (some ctxBound) worldOpen).world.calls = 2 ∧
    ¬ invocations 7 (resolveTwice sqlTxDriver (some ctxBound) worldOpen).world.calls ≤ 1 := by
  decide

/-- C6, amended: on a bound context, two Resolve calls in a row both return,
and each performs the operation selected by the flag on the record's handle, so
the handle receives exactly two invocations; each call returns what the handle
answers to its own invocation, the second one after having seen the first. -/
theorem resolveTwice_invokes_each_time (D : Driver) (ctx : Context) (w : World) (p : Nat)
    (t : transaction)
    (hctx : ctx.Value .transactionKey = some (.tx (some p))) (hrec : w.heap[p]? = some t) :
    ∃ r1 r2 w2, resolveTwice D (some ctx) w = .ret (r1, r2) w2 ∧
      (t.rollback = false →
        w2.calls = w.calls ++ [.txCommit t.tx, .txCommit t.tx] ∧
        r1 = D.txCommit w.calls t.tx ∧
        r2 = D.txCommit (w.calls ++ [.txCommit t.tx]) t.tx) ∧
      (t.rollback = true →
        w2.calls = w.calls ++ [.txRollback t.tx, .txRollback t.tx] ∧
        r1 = D.txRollback w.calls t.tx ∧
        r2 = D.txRollback (w.calls ++ [.txRollback t.tx]) t.tx) := by
  obtain ⟨w1, h1, hheap1, hcalls1, _⟩ := Resolve_bound_frame D ctx w p t hctx hrec
  obtain ⟨w2, h2, _, hcalls2, _⟩ :=
    Resolve_bound_frame D ctx w1 p t hctx (by rw [hheap1]; exact hrec)
  have hrun : resolveTwice D (some ctx) w =
      .ret (D.resolve w.calls t, D.resolve w1.calls t) w2 := by
    simp only [resolveTwice, h1, h2]
  refine ⟨D.resolve w.calls t, D.resolve w1.calls t, w2, hrun, ?_, ?_⟩ <;> intro hflag <;>
    simp [hcalls2, hcalls1, resolution, Driver.resolve, hflag]

theorem resolveTwice_invokes_each_time_witness :
    (ctxBound.Value .transactionKey = some (.tx (some 0)) ∧
      worldFlagged.heap[0]? = some recFlagged) ∧
    ∃ r1 r2 w2, resolveTwice sqlTxDriver (some ctxBound) worldFlagged = .ret (r1, r2) w2 ∧
      (recFlagged.rollback = false →
        w2.calls = worldFlagged.calls ++ [.txCommit recFlagged.tx, .txCommit recFlagged.tx] ∧
        r1 = sqlTxDriver.txCommit worldFlagged.calls recFlagged.tx ∧
        r2 = sqlTxDriver.txCommit (worldFlagged.calls ++ [.txCommit recFlagged.tx])
          recFlagged.tx) ∧
      (recFlagged.rollback = true →
        w2.calls =
          worldFlagged.calls ++ [.txRollback recFlagged.tx, .txRollback recFlagged.tx] ∧
        r1 = sqlTxDriver.txRollback worldFlagged.calls recFlagged.tx ∧
        r2 = sqlTxDriver.txRollback (worldFlagged.calls ++ [.txRollback recFlagged.tx])
          recFlagged.tx) :=
  ⟨⟨by decide, by decide⟩,
    resolveTwice_invokes_each_time sqlTxDriver ctxBound worldFlagged 0 recFlagged
      (by decide) (by decide)⟩

/-! ## MarkForRollback -/

/-- C7: on a context freshly returned by NewContext, n calls of MarkForRollback
all return, and afterwards the flag of the bound record is true if n is at least
1 and false if n is 0; two calls leave the same records (and the same database
operations and goroutines) as one call. -/
theorem MarkForRollback_flag_after (D : Driver) (parent : Context) (w w1 : World)
    (c : Context) (n : Nat)
    (hnew : NewContext D (some parent) w = .ret (some c, none) w1) :
    (∃ w2 p t, markTimes n (some c) w1 = .ret () w2 ∧
      c.Value .transactionKey = some (.tx (some p)) ∧ w2.heap[p]? = some t ∧
      (1 ≤ n → t.rollback = true) ∧ (n = 0 → t.rollback = false)) ∧
    (markTimes 2 (some c) w1).world.heap = (markTimes 1 (some c) w1).world.heap ∧
    (markTimes 2 (some c) w1).world.calls = (markTimes 1 (some c) w1).world.calls ∧
    (markTimes 2 (some c) w1).world.spawned = (markTimes 1 (some c) w1).world.spawned := by
  obtain ⟨d, h, c0, _, _, hpar, hc, hw1⟩ := NewContext_ok D (some parent) w w1 (some c) hnew
  have hc' : c = .withValue c0 .transactionKey (.tx (some w.heap.length)) := Option.some.inj hc
  have hctx : c.Value .transactionKey = some (.tx (some w.heap.length)) := by
    simp [hc', Context.Value]
  have hrec : w1.heap[w.heap.length]? = some ⟨h, false, [], []⟩ := by
    simp [hw1]
  refine ⟨?_, ?_⟩
  · obtain ⟨w2, hrun, hheap, _, _, _⟩ := markTimes_bound c _ hctx n w1 _ hrec
    by_cases hn : n = 0
    · refine ⟨w2, w.heap.length, ⟨h, false, [], []⟩, hrun, hctx, ?_, ?_, ?_⟩
      · rw [hheap, if_pos hn]; exact hrec
      · intro h1; omega
      · intro _; rfl
    · refine ⟨w2, w.heap.length, ⟨h, true, [], []⟩, hrun, hctx, ?_, ?_, ?_⟩
      · rw [hheap, if_neg hn]; exact heap_set_lookup _ _ _ _ hrec
      · intro _; rfl
      · intro h0; exact absurd h0 hn
  · obtain ⟨a, ha, hah, hac, has, _⟩ := markTimes_bound c _ hctx 1 w1 _ hrec
    obtain ⟨b, hb, hbh, hbc, hbs, _⟩ := markTimes_bound c _ hctx 2 w1 _ hrec
    simp only [ha, hb, Outcome.world]
    refine ⟨?_, ?_, ?_⟩
    · rw [hah, hbh]; simp
    · rw [hac, hbc]
    · rw [has, hbs]

theorem MarkForRollback_flag_after_witness :
    NewContext sqlTxDriver (some .background) worldIdle = .ret (some ctxFresh, none) worldFresh ∧
    (∃ w2 p t, markTimes 3 (some ctxFresh) worldFresh = .ret () w2 ∧
      ctxFresh.Value .transactionKey = some (.tx (some p)) ∧ w2.heap[p]? = some t ∧
      (1 ≤ 3 → t.rollback = true) ∧ (3 = 0 → t.rollback = false)) ∧
    (markTimes 2 (some ctxFresh) worldFresh).world.heap =
      (markTimes 1 (some ctxFresh) worldFresh).world.heap ∧
    (markTimes 2 (some ctxFresh) worldFresh).world.calls =
      (markTimes 1 (some ctxFresh) worldFresh).world.calls ∧
    (markTimes 2 (some ctxFresh) worldFresh).world.spawned =
      (markTimes 1 (some ctxFresh) worldFresh).world.spawned :=
  ⟨by decide,
    MarkForRollback_flag_after sqlTxDriver .background worldIdle worldFresh ctxFresh 3
      (by decide)⟩

/-- C8, as stated, fails: the nil context that NewContext returns when the
begin fails carries no transaction record, and MarkForRollback on it panics at
`ctx.Value`; it does not complete normally. -/
theorem MarkForRollback_nil_context_panics :
    NewContext unavailableDriver (some .background) worldIdle =
      .ret (none, some (.driver 3)) worldBeginFailed ∧
    MarkForRollback none worldBeginFailed = .panic worldBeginFailed ∧
    ¬ ∃ w1, MarkForRollback none worldBeginFailed = .ret () w1 := by
  refine ⟨by decide, by decide, ?_⟩
  rintro ⟨w1, h⟩
  simp [MarkForRollback, getTransaction] at h

/-- C8, amended: on a non-nil context whose value under transactionKey is not
a transaction record, MarkForRollback returns (it does not panic) and only
writes a log line: the records, the database operations, the goroutines and the
global db are as before; on the nil context MarkForRollback panics, and the
state is unchanged there too. -/
theorem MarkForRollback_without_transaction (ctx : Context) (w : World)
    (hno : ctx.carriesTransaction = false) :
    (∃ w', MarkForRollback (some ctx) w = .ret () w' ∧
      w'.heap = w.heap ∧ w'.calls = w.calls ∧ w'.spawned = w.spawned ∧ w'.db = w.db) ∧
    MarkForRollback none w = .panic w := by
  refine ⟨?_, by simp [MarkForRollback, getTransaction]⟩
  rw [MarkForRollback_unbound ctx w hno]
  exact ⟨_, rfl, rfl, rfl, rfl, rfl⟩

theorem MarkForRollback_without_transaction_witness :
    ctxFree.carriesTransaction = false ∧
    (∃ w', MarkForRollback (some ctxFree) worldOpen = .ret () w' ∧
      w'.heap = worldOpen.heap ∧ w'.calls = worldOpen.calls ∧
      w'.spawned = worldOpen.spawned ∧ w'.db = worldOpen.db) ∧
    MarkForRollback none worldOpen = .panic worldOpen :=
  ⟨by decide, MarkForRollback_without_transaction ctxFree worldOpen (by decide)⟩

/-! ## Callback registration and FromContext -/

/-- C9: on a bound context and for every callback f, nil included,
AddPostCommitCallback returns nil and changes the state only in the bound
record, whose postCommitCallbacks becomes the previous list followed by f while
its postRollbackCallbacks, flag and handle stay; AddPostRollbackCallback does
the same to postRollbackCallbacks and leaves postCommitCallbacks, flag and
handle. -/
theorem AddCallback_appends (ctx : Context) (w : World) (p : Nat) (t : transaction)
    (f : Option Callback)
    (hctx : ctx.Value .transactionKey = some (.tx (some p))) (hrec : w.heap[p]? = some t) :
    (∃ w', AddPostCommitCallback (some ctx) f w = .ret none w' ∧
      w' = { w with
        heap := w.heap.set p
          ⟨t.tx, t.rollback, t.postCommitCallbacks ++ [f], t.postRollbackCallbacks⟩ } ∧
      w'.heap[p]? =
        some ⟨t.tx, t.rollback, t.postCommitCallbacks ++ [f], t.postRollbackCallbacks⟩) ∧
    (∃ w', AddPostRollbackCallback (some ctx) f w = .ret none w' ∧
      w' = { w with
        heap := w.heap.set p
          ⟨t.tx, t.rollback, t.postCommitCallbacks, t.postRollbackCallbacks ++ [f]⟩ } ∧
      w'.heap[p]? =
        some ⟨t.tx, t.rollback, t.postCommitCallbacks, t.postRollbackCallbacks ++ [f]⟩) := by
  refine ⟨⟨_, AddPostCommitCallback_bound ctx w p t f hctx hrec, rfl, ?_⟩,
    ⟨_, AddPostRollbackCallback_bound ctx w p t f hctx hrec, rfl, ?_⟩⟩
  · exact heap_set_lookup _ _ _ _ hrec
  · exact heap_set_lookup _ _ _ _ hrec

theorem AddCallback_appends_witness :
    (ctxBound.Value .transactionKey = some (.tx (some 0)) ∧
      worldOpen.heap[0]? = some recOpen) ∧
    (∃ w', AddPostCommitCallback (some ctxBound) none worldOpen = .ret none w' ∧
      w' = { worldOpen with
        heap := worldOpen.heap.set 0
          ⟨recOpen.tx, recOpen.rollback, recOpen.postCommitCallbacks ++ [none],
            recOpen.postRollbackCallbacks⟩ } ∧
      w'.heap[0]? =
        some ⟨recOpen.tx, recOpen.rollback, recOpen.postCommitCallbacks ++ [none],
          recOpen.postRollbackCallbacks⟩) ∧
    (∃ w', AddPostRollbackCallback (some ctxBound) none worldOpen = .ret none w' ∧
      w' = { worldOpen with
        heap := worldOpen.heap.set 0
          ⟨recOpen.tx, recOpen.rollback, recOpen.postCommitCallbacks,
            recOpen.postRollbackCallbacks ++ [none]⟩ } ∧
      w'.heap[0]? =
        some ⟨recOpen.tx, recOpen.rollback, recOpen.postCommitCallbacks,
          recOpen.postRollbackCallbacks ++ [none]⟩) :=
  ⟨⟨by decide, by decide⟩,
    AddCallback_appends ctxBound worldOpen 0 recOpen none (by decide) (by decide)⟩

/-- C10, as stated, fails: the nil context that NewContext returns when the
begin fails carries no transaction record, and on it AddPostCommitCallback,
AddPostRollbackCallback and FromContext panic at `ctx.Value`; none of them
returns the no-transaction error. -/
theorem accessors_nil_context_panic :
    NewContext unavailableDriver (some .background) worldIdle =
      .ret (none, some (.driver 3)) worldBeginFailed ∧
    AddPostCommitCallback none (some 11) worldBeginFailed = .panic worldBeginFailed ∧
    AddPostRollbackCallback none (some 11) worldBeginFailed = .panic worldBeginFailed ∧
    FromContext none worldBeginFailed = .panic worldBeginFailed ∧
    (¬ ∃ r w1, AddPostCommitCallback none (some 11) worldBeginFailed = .ret r w1) ∧
    (¬ ∃ r w1, AddPostRollbackCallback none (some 11) worldBeginFailed = .ret r w1) ∧
    ¬ ∃ r w1, FromContext none worldBeginFailed = .ret r w1 := by
  refine ⟨by decide, by decide, by decide, by decide, ?_, ?_, ?_⟩
  · rintro ⟨r, w1, h⟩
    simp [AddPostCommitCallback, getTransaction] at h
  · rintro ⟨r, w1, h⟩
    simp [AddPostRollbackCallback, getTransaction] at h
  · rintro ⟨r, w1, h⟩
    simp [FromContext, getTransaction] at h

/-- C10, amended: on a non-nil context whose value under transactionKey is not
a transaction record, FromContext returns a nil handle with the no-transaction
error, and AddPostCommitCallback and AddPostRollbackCallback return the
no-transaction error; each leaves the whole state, records included, exactly as
it was. On the nil context each of the three panics, again in the unchanged
state. -/
theorem accessors_without_transaction (ctx : Context) (w : World) (f : Option Callback)
    (hno : ctx.carriesTransaction = false) :
    (FromContext (some ctx) w = .ret (none, some .noTransaction) w ∧
      AddPostCommitCallback (some ctx) f w = .ret (some .noTransaction) w ∧
      AddPostRollbackCallback (some ctx) f w = .ret (some .noTransaction) w) ∧
    (FromContext none w = .panic w ∧
      AddPostCommitCallback none f w = .panic w ∧
      AddPostRollbackCallback none f w = .panic w) := by
  refine ⟨⟨?_, ?_, ?_⟩, ⟨?_, ?_, ?_⟩⟩
  · simp [FromContext, getTransaction_none ctx w hno]
  · simp [AddPostCommitCallback, getTransaction_none ctx w hno]
  · simp [AddPostRollbackCallback, getTransaction_none ctx w hno]
  · simp [FromContext, getTransaction]
  · simp [AddPostCommitCallback, getTransaction]
  · simp [AddPostRollbackCallback, getTransaction]

theorem accessors_without_transaction_witness :
    ctxFree.carriesTransaction = false ∧
    (FromContext (some ctxFree) worldOpen = .ret (none, some .noTransaction) worldOpen ∧
      AddPostCommitCallback (some ctxFree) (some 11) worldOpen =
        .ret (some .noTransaction) worldOpen ∧
      AddPostRollbackCallback (some ctxFree) (some 11) worldOpen =
        .ret (some .noTransaction) worldOpen) ∧
    (FromContext none worldOpen = .panic worldOpen ∧
      AddPostCommitCallback none (some 11) worldOpen = .panic worldOpen ∧
      AddPostRollbackCallback none (some 11) worldOpen = .panic worldOpen) :=
  ⟨by decide, accessors_without_transaction ctxFree worldOpen (some 11) (by decide)⟩

/-! ## NewContext and the lineage of a context -/

theorem derive_Value (kvs : List (Nat × Value)) :
    ∀ c : Context, (c.derive kvs).Value .transactionKey = c.Value .transactionKey := by
  induction kvs with
  | nil => intro c; rfl
  | cons kv kvs ih =>
    intro c
    obtain ⟨k, v⟩ := kv
    simp [Context.derive, ih, Context.Value]

theorem FromContext_bound (ctx : Context) (w : World) (p : Nat) (t : transaction)
    (hctx : ctx.Value .transactionKey = some (.tx (some p))) (hrec : w.heap[p]? = some t) :
    FromContext (some ctx) w = .ret (some t.tx, none) w := by
  simp [FromContext, getTransaction_some ctx w _ hctx, World.deref, hrec]

/-- C11: for every parent context, when the database begins a transaction with
handle h, NewContext returns a nil error and a context bound to a record with
handle h, flag false and both callback lists empty; FromContext on that context
and on every context derived from it under other keys returns h and a nil
error. -/
theorem NewContext_binds_fresh_record (D : Driver) (parent : Context) (w : World) (d : Nat)
    (h : Handle) (hdb : w.db = some d) (hbegin : D.dbBegin w.calls d = .ok h) :
    ∃ c w1 p, NewContext D (some parent) w = .ret (some c, none) w1 ∧
      c.Value .transactionKey = some (.tx (some p)) ∧
      w1.heap[p]? = some ⟨h, false, [], []⟩ ∧
      ∀ kvs, FromContext (some (c.derive kvs)) w1 = .ret (some h, none) w1 := by
  have hrec : (w.heap ++ [(⟨h, false, [], []⟩ : transaction)])[w.heap.length]? =
      some ⟨h, false, [], []⟩ := by simp
  refine ⟨.withValue parent .transactionKey (.tx (some w.heap.length)),
    { w with calls := w.calls ++ [.dbBegin d], heap := w.heap ++ [⟨h, false, [], []⟩] },
    w.heap.length, ?_, ?_, hrec, ?_⟩
  · simp [NewContext, new, hdb, hbegin, World.call, defaultRollbackPolicy]
  · simp [Context.Value]
  · intro kvs
    have hv : ((Context.withValue parent .transactionKey
        (.tx (some w.heap.length))).derive kvs).Value .transactionKey =
        some (.tx (some w.heap.length)) := by
      rw [derive_Value]; simp [Context.Value]
    exact FromContext_bound _
      { w with calls := w.calls ++ [.dbBegin d], heap := w.heap ++ [⟨h, false, [], []⟩] }
      w.heap.length _ hv hrec

theorem NewContext_binds_fresh_record_witness :
    (worldIdle.db = some 0 ∧ sqlTxDriver.dbBegin worldIdle.calls 0 = .ok 0) ∧
    ∃ c w1 p, NewContext sqlTxDriver (some ctxFree) worldIdle = .ret (some c, none) w1 ∧
      c.Value .transactionKey = some (.tx (some p)) ∧
      w1.heap[p]? = some ⟨0, false, [], []⟩ ∧
      ∀ kvs, FromContext (some (c.derive kvs)) w1 = .ret (some 0, none) w1 :=
  ⟨⟨by decide, rfl⟩,
    NewContext_binds_fresh_record sqlTxDriver ctxFree worldIdle 0 0 (by decide) rfl⟩

/-- C12, as stated, fails: when the begin fails NewContext returns the begin
error together with a nil context, and FromContext on that nil context panics;
it does not return an error. -/
theorem FromContext_after_failed_NewContext_panics :
    NewContext unavailableDriver (some .background) worldIdle =
      .ret (none, some (.driver 3)) worldBeginFailed ∧
    FromContext none worldBeginFailed = .panic worldBeginFailed ∧
    ¬ ∃ r w1, FromContext none worldBeginFailed = .ret r w1 := by
  refine ⟨by decide, by decide, ?_⟩
  rintro ⟨r, w1, h⟩
  simp [FromContext, getTransaction] at h

/-- C12, amended: for every parent context, when the database cannot begin a
transaction, NewContext returns the begin error and a nil context and allocates
no record; FromContext on that nil context yields no handle, by panicking. -/
theorem NewContext_begin_failure (D : Driver) (parent : Option Context) (w : World) (d : Nat)
    (e : Err) (hdb : w.db = some d) (hbegin : D.dbBegin w.calls d = .error e) :
    ∃ c w1, NewContext D parent w = .ret (c, some e) w1 ∧ c = none ∧ w1.heap = w.heap ∧
      FromContext c w1 = .panic w1 ∧ ¬ ∃ h w2, FromContext c w1 = .ret (some h, none) w2 := by
  refine ⟨none, w.call (.dbBegin d), ?_, rfl, rfl, ?_, ?_⟩
  · simp [NewContext, new, hdb, hbegin]
  · simp [FromContext, getTransaction]
  · simp [FromContext, getTransaction]

theorem NewContext_begin_failure_witness :
    (worldIdle.db = some 0 ∧
      unavailableDriver.dbBegin worldIdle.calls 0 = .error (.driver 3)) ∧
    ∃ c w1, NewContext unavailableDriver (some ctxFree) worldIdle = .ret (c, some (.driver 3)) w1 ∧
      c = none ∧ w1.heap = worldIdle.heap ∧
      FromContext c w1 = .panic w1 ∧ ¬ ∃ h w2, FromContext c w1 = .ret (some h, none) w2 :=
  ⟨⟨by decide, rfl⟩,
    NewContext_begin_failure unavailableDriver (some ctxFree) worldIdle 0 (.driver 3)
      (by decide) rfl⟩

/-! ## The rollback flag never goes back -/

/-- The ways a context can stand to the records: nil, without a
`*transaction` under the key, with a nil one, with a dangling one, or bound. -/
theorem binding_cases (ctx : Option Context) (w : World) :
    ctx = none ∨
    (∃ c, ctx = some c ∧ c.carriesTransaction = false) ∨
    (∃ c, ctx = some c ∧ c.Value .transactionKey = some (.tx none)) ∨
    (∃ c a, ctx = some c ∧ c.Value .transactionKey = some (.tx (some a)) ∧ w.heap[a]? = none) ∨
    (∃ c a t, ctx = some c ∧ c.Value .transactionKey = some (.tx (some a)) ∧
      w.heap[a]? = some t) := by
  cases ctx with
  | none => exact Or.inl rfl
  | some c =>
    right
    cases hv : c.Value .transactionKey with
    | none => exact Or.inl ⟨c, rfl, by simp [Context.carriesTransaction, hv]⟩
    | some v =>
      cases v with
      | other n => exact Or.inl ⟨c, rfl, by simp [Context.carriesTransaction, hv]⟩
      | tx p =>
        right
        cases p with
        | none => exact Or.inl ⟨c, rfl, hv⟩
        | some a =>
          right
          cases hr : w.heap[a]? with
          | none => exact Or.inl ⟨c, a, rfl, hv, hr⟩
          | some t => exact Or.inr ⟨c, a, t, rfl, hv, hr⟩

/-- Overwriting one record by a record that is flagged whenever the old one was
keeps every flagged record flagged. -/
theorem flag_kept_set (heap : List transaction) (p q : Nat) (t0 t1 t : transaction)
    (h0 : heap[p]? = some t0) (hq : heap[q]? = some t) (hflag : t.rollback = true)
    (hmono : t0.rollback = true → t1.rollback = true) :
    ∃ t2, (heap.set p t1)[q]? = some t2 ∧ t2.rollback = true := by
  by_cases hpq : p = q
  · subst hpq
    have ht : t0 = t := by rw [h0] at hq; exact Option.some.inj hq
    exact ⟨t1, heap_set_lookup heap p t0 t1 h0, hmono (ht ▸ hflag)⟩
  · exact ⟨t, by rw [List.getElem?_set_ne hpq]; exact hq, hflag⟩

theorem Resolve_heap (D : Driver) (ctx : Option Context) (w : World) :
    (Resolve D ctx w).world.heap = w.heap := by
  rcases binding_cases ctx w with h | ⟨c, h, hno⟩ | ⟨c, h, hv⟩ | ⟨c, a, h, hv, hr⟩ |
    ⟨c, a, t, h, hv, hr⟩
  · subst h; simp [Resolve, getTransaction, Outcome.world]
  · subst h; simp [Resolve_unbound D c w hno, Outcome.world, World.logged]
  · subst h; simp [Resolve, getTransaction, hv, World.deref, Outcome.world]
  · subst h; simp [Resolve, getTransaction, hv, World.deref, hr, Outcome.world]
  · subst h
    obtain ⟨w1, h1, hheap, _, _⟩ := Resolve_bound_frame D c w a t hv hr
    simp [h1, Outcome.world, hheap]

theorem FromContext_heap (ctx : Option Context) (w : World) :
    (FromContext ctx w).world.heap = w.heap := by
  rcases binding_cases ctx w with h | ⟨c, h, hno⟩ | ⟨c, h, hv⟩ | ⟨c, a, h, hv, hr⟩ |
    ⟨c, a, t, h, hv, hr⟩
  · subst h; simp [FromContext, getTransaction, Outcome.world]
  · subst h; simp [FromContext, getTransaction_none c w hno, Outcome.world]
  · subst h; simp [FromContext, getTransaction, hv, World.deref, Outcome.world]
  · subst h; simp [FromContext, getTransaction, hv, World.deref, hr, Outcome.world]
  · subst h; simp [FromContext_bound c w a t hv hr, Outcome.world]

theorem MarkForRollback_keeps_flags (ctx : Option Context) (w : World) (q : Nat)
    (t : transaction) (hq : w.heap[q]? = some t) (hflag : t.rollback = true) :
    ∃ t2, (MarkForRollback ctx w).world.heap[q]? = some t2 ∧ t2.rollback = true := by
  rcases binding_cases ctx w with h | ⟨c, h, hno⟩ | ⟨c, h, hv⟩ | ⟨c, a, h, hv, hr⟩ |
    ⟨c, a, t0, h, hv, hr⟩
  · subst h; exact ⟨t, by simp [MarkForRollback, getTransaction, Outcome.world, hq], hflag⟩
  · subst h
    exact ⟨t, by simp [MarkForRollback_unbound c w hno, Outcome.world, World.logged, hq], hflag⟩
  · subst h
    exact ⟨t, by simp [MarkForRollback, getTransaction, hv, World.deref, World.logged,
      Outcome.world, hq], hflag⟩
  · subst h
    exact ⟨t, by simp [MarkForRollback, getTransaction, hv, World.deref, World.logged, hr,
      Outcome.world, hq], hflag⟩
  · subst h
    simp only [MarkForRollback_bound c w a t0 hv hr, Outcome.world]
    exact flag_kept_set w.heap a q t0 _ t hr hq hflag (fun _ => rfl)

theorem AddPostCommitCallback_keeps_flags (ctx : Option Context) (f : Option Callback)
    (w : World) (q : Nat) (t : transaction) (hq : w.heap[q]? = some t)
    (hflag : t.rollback = true) :
    ∃ t2, (AddPostCommitCallback ctx f w).world.heap[q]? = some t2 ∧ t2.rollback = true := by
  rcases binding_cases ctx w with h | ⟨c, h, hno⟩ | ⟨c, h, hv⟩ | ⟨c, a, h, hv, hr⟩ |
    ⟨c, a, t0, h, hv, hr⟩
  · subst h
    exact ⟨t, by simp [AddPostCommitCallback, getTransaction, Outcome.world, hq], hflag⟩
  · subst h
    exact ⟨t, by simp [AddPostCommitCallback, getTransaction_none c w hno, Outcome.world, hq],
      hflag⟩
  · subst h
    exact ⟨t, by simp [AddPostCommitCallback, getTransaction, hv, World.deref,
      Outcome.world, hq], hflag⟩
  · subst h
    exact ⟨t, by simp [AddPostCommitCallback, getTransaction, hv, World.deref, hr,
      Outcome.world, hq], hflag⟩
  · subst h
    simp only [AddPostCommitCallback_bound c w a t0 f hv hr, Outcome.world]
    exact flag_kept_set w.heap a q t0 _ t hr hq hflag (fun h0 => h0)

theorem AddPostRollbackCallback_keeps_flags (ctx : Option Context) (f : Option Callback)
    (w : World) (q : Nat) (t : transaction) (hq : w.heap[q]? = some t)
    (hflag : t.rollback = true) :
    ∃ t2, (AddPostRollbackCallback ctx f w).world.heap[q]? = some t2 ∧ t2.rollback = true := by
  rcases binding_cases ctx w with h | ⟨c, h, hno⟩ | ⟨c, h, hv⟩ | ⟨c, a, h, hv, hr⟩ |
    ⟨c, a, t0, h, hv, hr⟩
  · subst h
    exact ⟨t, by simp [AddPostRollbackCallback, getTransaction, Outcome.world, hq], hflag⟩
  · subst h
    exact ⟨t, by simp [AddPostRollbackCallback, getTransaction_none c w hno, Outcome.world, hq],
      hflag⟩
  · subst h
    exact ⟨t, by simp [AddPostRollbackCallback, getTransaction, hv, World.deref,
      Outcome.world, hq], hflag⟩
  · subst h
    exact ⟨t, by simp [AddPostRollbackCallback, getTransaction, hv, World.deref, hr,
      Outcome.world, hq], hflag⟩
  · subst h
    simp only [AddPostRollbackCallback_bound c w a t0 f hv hr, Outcome.world]
    exact flag_kept_set w.heap a q t0 _ t hr hq hflag (fun h0 => h0)

/-- C13: a record whose rollback flag is true is still allocated with a true
flag after MarkForRollback, AddPostCommitCallback, AddPostRollbackCallback,
FromContext or Resolve, whatever context the operation is given and whether it
returns nil, returns an error or panics. -/
theorem rollback_flag_never_cleared (D : Driver) (ctx : Option Context)
    (f : Option Callback) (w : World) (q : Nat) (t : transaction)
    (hq : w.heap[q]? = some t) (hflag : t.rollback = true) :
    (∃ t2, (MarkForRollback ctx w).world.heap[q]? = some t2 ∧ t2.rollback = true) ∧
    (∃ t2, (AddPostCommitCallback ctx f w).world.heap[q]? = some t2 ∧ t2.rollback = true) ∧
    (∃ t2, (AddPostRollbackCallback ctx f w).world.heap[q]? = some t2 ∧ t2.rollback = true) ∧
    (∃ t2, (FromContext ctx w).world.heap[q]? = some t2 ∧ t2.rollback = true) ∧
    (∃ t2, (Resolve D ctx w).world.heap[q]? = some t2 ∧ t2.rollback = true) :=
  ⟨MarkForRollback_keeps_flags ctx w q t hq hflag,
    AddPostCommitCallback_keeps_flags ctx f w q t hq hflag,
    AddPostRollbackCallback_keeps_flags ctx f w q t hq hflag,
    ⟨t, by rw [FromContext_heap]; exact hq, hflag⟩,
    ⟨t, by rw [Resolve_heap]; exact hq, hflag⟩⟩

theorem rollback_flag_never_cleared_witness :
    (worldFlagged.heap[0]? = some recFlagged ∧ recFlagged.rollback = true) ∧
    (∃ t2, (MarkForRollback (some ctxBound) worldFlagged).world.heap[0]? = some t2 ∧
      t2.rollback = true) ∧
    (∃ t2, (AddPostCommitCallback (some ctxBound) (some 13) worldFlagged).world.heap[0]? =
      some t2 ∧ t2.rollback = true) ∧
    (∃ t2, (AddPostRollbackCallback (some ctxBound) (some 13) worldFlagged).world.heap[0]? =
      some t2 ∧ t2.rollback = true) ∧
    (∃ t2, (FromContext (some ctxBound) worldFlagged).world.heap[0]? = some t2 ∧
      t2.rollback = true) ∧
    (∃ t2, (Resolve rejectingDriver (some ctxBound) worldFlagged).world.heap[0]? = some t2 ∧
      t2.rollback = true) :=
  ⟨⟨by decide, by decide⟩,
    rollback_flag_never_cleared rejectingDriver (some ctxBound) (some 13) worldFlagged 0
      recFlagged (by decide) (by decide)⟩

/-! ## Records along a lineage -/

/-- C14, as stated, fails: NewContext applied to the context returned by a first
NewContext begins another transaction and attaches a second record to the
lineage, in front of the first. -/
theorem NewContext_attaches_second_record :
    NewContext sqlTxDriver (some .background) worldIdle =
      .ret (some ctxFresh, none) worldFresh ∧
    NewContext sqlTxDriver (some ctxFresh) worldFresh =
      .ret (some ctxNested, none) worldNested ∧
    ctxNested.records = [some 1, some 0] ∧
    ¬ ctxNested.records.length ≤ 1 := by
  decide

/-- C14, amended: every successful NewContext allocates a record that did not
exist before and attaches it in front of the records of the parent lineage,
whether or not the parent already carries one; the new record is the one seen
through the returned context, and a parent without records gives a context with
exactly one. -/
theorem NewContext_adds_one_record (D : Driver) (parent c : Context) (w w1 : World)
    (hnew : NewContext D (some parent) w = .ret (some c, none) w1) :
    c.records = some w.heap.length :: parent.records ∧
    c.Value .transactionKey = some (.tx (some w.heap.length)) ∧
    w.heap[w.heap.length]? = none ∧
    (∃ t, w1.heap[w.heap.length]? = some t) ∧
    (parent.records = [] → c.records.length = 1) := by
  obtain ⟨d, h, c0, _, _, hpar, hc, hw1⟩ := NewContext_ok D (some parent) w w1 (some c) hnew
  have hp : parent = c0 := Option.some.inj hpar
  have hc1 : c = .withValue parent .transactionKey (.tx (some w.heap.length)) := by
    rw [hp]; exact Option.some.inj hc
  have hrecs : c.records = some w.heap.length :: parent.records := by
    rw [hc1]; simp [Context.records]
  refine ⟨hrecs, ?_, ?_, ?_, ?_⟩
  · rw [hc1]; simp [Context.Value]
  · simp
  · exact ⟨⟨h, false, [], []⟩, by simp [hw1]⟩
  · intro hnone; rw [hrecs, hnone]; rfl

theorem NewContext_adds_one_record_witness :
    NewContext sqlTxDriver (some ctxFresh) worldFresh = .ret (some ctxNested, none) worldNested ∧
    ctxNested.records = some worldFresh.heap.length :: ctxFresh.records ∧
    ctxNested.Value .transactionKey = some (.tx (some worldFresh.heap.length)) ∧
    worldFresh.heap[worldFresh.heap.length]? = none ∧
    (∃ t, worldNested.heap[worldFresh.heap.length]? = some t) ∧
    (ctxFresh.records = [] → ctxNested.records.length = 1) :=
  ⟨by decide,
    NewContext_adds_one_record sqlTxDriver ctxFresh ctxNested worldFresh worldNested
      (by decide)⟩

/-! ## InitDB -/

/-- C15: for every pair of connection strings, when `sql.Open` answers the
first InitDB with a connection object, as it does for a registered driver, the
first InitDB returns and leaves a connection object set; the second InitDB then
returns the error that the DB object exists and changes nothing, so it opens no
connection and the connection object of the first call stays. -/
theorem InitDB_second_call_rejected (D : Driver) (s1 s2 : String) (w : World) (d : Nat)
    (hopen : (D.sqlOpen w.calls s1).1 = some d) :
    ∃ r w1 d1, InitDB D s1 w = .ret r w1 ∧ w1.db = some d1 ∧
      (w.db = none → d1 = d ∧ w1.calls = w.calls ++ [.sqlOpen s1]) ∧
      InitDB D s2 w1 = .ret (some .dbExists) w1 := by
  cases hdb : w.db with
  | some d0 =>
    have h1 : InitDB D s1 w = .ret (some .dbExists) w := by simp [InitDB, hdb]
    exact ⟨_, w, d0, h1, hdb, fun hnone => by simp [hdb] at hnone, h1 ▸ by simp [InitDB, hdb]⟩
  | none =>
    have h1 : InitDB D s1 w =
        .ret (D.sqlOpen w.calls s1).2
          { w.call (.sqlOpen s1) with db := (D.sqlOpen w.calls s1).1 } := by
      simp [InitDB, hdb]
    exact ⟨_, _, d, h1, hopen, fun _ => ⟨rfl, rfl⟩, by simp [InitDB, hopen]⟩

theorem InitDB_second_call_rejected_witness :
    (sqlTxDriver.sqlOpen worldEmpty.calls "first").1 = some 0 ∧
    ∃ r w1 d1, InitDB sqlTxDriver "first" worldEmpty = .ret r w1 ∧ w1.db = some d1 ∧
      (worldEmpty.db = none → d1 = 0 ∧ w1.calls = worldEmpty.calls ++ [.sqlOpen "first"]) ∧
      InitDB sqlTxDriver "second" w1 = .ret (some .dbExists) w1 :=
  ⟨by decide, InitDB_second_call_rejected sqlTxDriver "first" "second" worldEmpty 0 (by decide)⟩

/-! ## CheckConnection -/

/-- Resolve on the context that `NewContext` has just built on the background
context: it returns, after a commit of the new handle. -/
theorem Resolve_fresh (D : Driver) (w : World) (h : Handle) (cs : List DbCall) :
    ∃ r w1,
      Resolve D (some (.withValue .background .transactionKey (.tx (some w.heap.length))))
        { w with calls := cs, heap := w.heap ++ [⟨h, false, [], []⟩] } = .ret r w1 ∧
      w1.calls = cs ++ [.txCommit h] := by
  have hrec : (w.heap ++ [(⟨h, false, [], []⟩ : transaction)])[w.heap.length]? =
      some ⟨h, false, [], []⟩ := by simp
  obtain ⟨w1, h1, _, hcalls, _⟩ := Resolve_bound_frame D
    (.withValue .background .transactionKey (.tx (some w.heap.length)))
    { w with calls := cs, heap := w.heap ++ [⟨h, false, [], []⟩] } w.heap.length
    ⟨h, false, [], []⟩ (by simp [Context.Value]) hrec
  exact ⟨_, w1, h1, by simpa [resolution] using hcalls⟩

/-- C16, as stated, fails: with a database that accepts the begin and the query
and rejects the commit, the Resolve of the short-lived transaction fails, and
CheckConnection returns nil all the same. -/
theorem CheckConnection_hides_failed_Resolve :
    CheckConnection rejectingDriver worldIdle = .ret none worldChecked ∧
    Resolve rejectingDriver (some ctxFresh)
        ⟨some 0, [⟨0, false, [], []⟩], [.dbBegin 0, .dbQuery 0, .rowsClose 0], [], []⟩ =
      .ret (some (.driver 2)) worldChecked := by
  decide

/-- C16, amended: with the global db set, CheckConnection returns the begin
error when NewContext fails and the query error when the query fails, and it
returns nil when both succeed; the transaction is then resolved by a commit
whose result is dropped, so a failure of Resolve is not reported. -/
theorem CheckConnection_result (D : Driver) (w : World) (d : Nat) (hdb : w.db = some d) :
    (∀ e, D.dbBegin w.calls d = .error e →
      ∃ w1, CheckConnection D w = .ret (some e) w1 ∧ w1.calls = w.calls ++ [.dbBegin d]) ∧
    (∀ h e, D.dbBegin w.calls d = .ok h →
      D.dbQuery (w.calls ++ [.dbBegin d]) d = .error e →
      ∃ w1, CheckConnection D w = .ret (some e) w1 ∧
        w1.calls = w.calls ++ [.dbBegin d, .dbQuery d, .txCommit h]) ∧
    (∀ h r, D.dbBegin w.calls d = .ok h →
      D.dbQuery (w.calls ++ [.dbBegin d]) d = .ok r →
      ∃ w1, CheckConnection D w = .ret none w1 ∧
        w1.calls = w.calls ++ [.dbBegin d, .dbQuery d, .rowsClose r, .txCommit h]) := by
  refine ⟨?_, ?_, ?_⟩
  · intro e hb
    exact ⟨w.call (.dbBegin d), by simp [CheckConnection, NewContext, new, hdb, hb], rfl⟩
  · intro h e hb hquery
    obtain ⟨r, w1, hres, hcalls⟩ := Resolve_fresh D w h (w.calls ++ [.dbBegin d, .dbQuery d])
    refine ⟨w1, ?_, hcalls.trans (by simp)⟩
    simp [CheckConnection, NewContext, new, hdb, hb, World.call, defaultRollbackPolicy, hquery]
    simp only [hdb] at hres
    simp [hres]
  · intro h r hb hquery
    obtain ⟨r1, w1, hres, hcalls⟩ :=
      Resolve_fresh D w h (w.calls ++ [.dbBegin d, .dbQuery d, .rowsClose r])
    refine ⟨w1, ?_, hcalls.trans (by simp)⟩
    simp [CheckConnection, NewContext, new, hdb, hb, World.call, defaultRollbackPolicy, hquery]
    simp only [hdb] at hres
    simp [hres]

theorem CheckConnection_result_witness :
    worldIdle.db = some 0 ∧
    (∀ e, rejectingDriver.dbBegin worldIdle.calls 0 = .error e →
      ∃ w1, CheckConnection rejectingDriver worldIdle = .ret (some e) w1 ∧
        w1.calls = worldIdle.calls ++ [.dbBegin 0]) ∧
    (∀ h e, rejectingDriver.dbBegin worldIdle.calls 0 = .ok h →
      rejectingDriver.dbQuery (worldIdle.calls ++ [.dbBegin 0]) 0 = .error e →
      ∃ w1, CheckConnection rejectingDriver worldIdle = .ret (some e) w1 ∧
        w1.calls = worldIdle.calls ++ [.dbBegin 0, .dbQuery 0, .txCommit h]) ∧
    (∀ h r, rejectingDriver.dbBegin worldIdle.calls 0 = .ok h →
      rejectingDriver.dbQuery (worldIdle.calls ++ [.dbBegin 0]) 0 = .ok r →
      ∃ w1, CheckConnection rejectingDriver worldIdle = .ret none w1 ∧
        w1.calls = worldIdle.calls ++ [.dbBegin 0, .dbQuery 0, .rowsClose r, .txCommit h]) :=
  ⟨by decide, CheckConnection_result rejectingDriver worldIdle 0 (by decide)⟩

/-! ## One record for all the contexts of a lineage -/

theorem getTransaction_congr (c1 c2 : Context)
    (h : c1.Value .transactionKey = c2.Value .transactionKey) (v : World) :
    getTransaction (some c1) v = getTransaction (some c2) v := by
  simp [getTransaction, h]

/-- The operations read a context only through its value under `transactionKey`. -/
theorem operations_congr (D : Driver) (c1 c2 : Context) (f : Option Callback)
    (h : c1.Value .transactionKey = c2.Value .transactionKey) (v : World) :
    MarkForRollback (some c1) v = MarkForRollback (some c2) v ∧
    AddPostCommitCallback (some c1) f v = AddPostCommitCallback (some c2) f v ∧
    AddPostRollbackCallback (some c1) f v = AddPostRollbackCallback (some c2) f v ∧
    FromContext (some c1) v = FromContext (some c2) v ∧
    Resolve D (some c1) v = Resolve D (some c2) v := by
  have hg := getTransaction_congr c1 c2 h
  refine ⟨?_, ?_, ?_, ?_, ?_⟩
  · simp only [MarkForRollback, hg]
  · simp only [AddPostCommitCallback, hg]
  · simp only [AddPostRollbackCallback, hg]
  · simp only [FromContext, hg]
  · simp only [Resolve, rollback, commit, hg]

/-- C17: for a context c returned by NewContext and a context derived from c
under other keys, every operation has the same outcome through either of the
two, in every state, so what is done through one is seen through the other; in
particular, after a post-rollback callback f is registered and MarkForRollback
is called through the derived context, Resolve on c rolls the handle back and,
when the rollback succeeds, dispatches f. -/
theorem record_shared_along_lineage (D : Driver) (parent c : Context) (w w1 : World)
    (kvs : List (Nat × Value)) (f : Callback)
    (hnew : NewContext D (some parent) w = .ret (some c, none) w1) :
    (∀ (v : World) (g : Option Callback),
      MarkForRollback (some (c.derive kvs)) v = MarkForRollback (some c) v ∧
      AddPostCommitCallback (some (c.derive kvs)) g v = AddPostCommitCallback (some c) g v ∧
      AddPostRollbackCallback (some (c.derive kvs)) g v =
        AddPostRollbackCallback (some c) g v ∧
      FromContext (some (c.derive kvs)) v = FromContext (some c) v ∧
      Resolve D (some (c.derive kvs)) v = Resolve D (some c) v) ∧
    ∃ h w2 w3 r w4,
      FromContext (some c) w1 = .ret (some h, none) w1 ∧
      AddPostRollbackCallback (some (c.derive kvs)) (some f) w1 = .ret none w2 ∧
      MarkForRollback (some (c.derive kvs)) w2 = .ret () w3 ∧
      Resolve D (some c) w3 = .ret r w4 ∧
      w4.calls = w3.calls ++ [.txRollback h] ∧
      r = D.txRollback w3.calls h ∧
      (r = none → w4.spawned = w3.spawned ++ [f]) := by
  refine ⟨fun v g => operations_congr D _ _ g (derive_Value kvs c) v, ?_⟩
  obtain ⟨d, h, c0, _, _, _, hc, hw1⟩ := NewContext_ok D (some parent) w w1 (some c) hnew
  have hc1 : c = .withValue c0 .transactionKey (.tx (some w.heap.length)) := Option.some.inj hc
  have hctx : c.Value .transactionKey = some (.tx (some w.heap.length)) := by
    simp [hc1, Context.Value]
  have hctxd : (c.derive kvs).Value .transactionKey = some (.tx (some w.heap.length)) := by
    rw [derive_Value]; exact hctx
  have hrec1 : w1.heap[w.heap.length]? = some ⟨h, false, [], []⟩ := by simp [hw1]
  obtain ⟨w2, hadd, hrec2, hcalls2, hsp2⟩ : ∃ w2,
      AddPostRollbackCallback (some (c.derive kvs)) (some f) w1 = .ret none w2 ∧
      w2.heap[w.heap.length]? = some ⟨h, false, [], [some f]⟩ ∧
      w2.calls = w1.calls ∧ w2.spawned = w1.spawned :=
    ⟨_, AddPostRollbackCallback_bound (c.derive kvs) w1 _ _ (some f) hctxd hrec1,
      heap_set_lookup _ _ _ _ hrec1, rfl, rfl⟩
  obtain ⟨w3, hmark, hrec3⟩ : ∃ w3,
      MarkForRollback (some (c.derive kvs)) w2 = .ret () w3 ∧
      w3.heap[w.heap.length]? = some ⟨h, true, [], [some f]⟩ :=
    ⟨_, MarkForRollback_bound (c.derive kvs) w2 _ _ hctxd hrec2,
      heap_set_lookup _ _ _ _ hrec2⟩
  have hres := Resolve_bound D c w3 _ _ hctx hrec3
  have hfrom := FromContext_bound c w1 _ _ hctx hrec1
  cases hr : D.txRollback w3.calls h with
  | none =>
    have hr2 : D.resolve w3.calls ⟨h, true, [], [some f]⟩ = none := by
      simp [Driver.resolve, hr]
    rw [hr2] at hres
    refine ⟨h, w2, w3, none, _, hfrom, hadd, hmark, hres, ?_, hr.symm, ?_⟩
    · simp [resolution]
    · intro _; simp [matchingCallbacks]
  | some err =>
    have hr2 : D.resolve w3.calls ⟨h, true, [], [some f]⟩ = some err := by
      simp [Driver.resolve, hr]
    rw [hr2] at hres
    refine ⟨h, w2, w3, some err, _, hfrom, hadd, hmark, hres, ?_, hr.symm, ?_⟩
    · simp [resolution, World.call, World.logged]
    · intro hnone; simp at hnone

theorem record_shared_along_lineage_witness :
    NewContext sqlTxDriver (some .background) worldIdle = .ret (some ctxFresh, none) worldFresh ∧
    (∀ (v : World) (g : Option Callback),
      MarkForRollback (some (ctxFresh.derive [(5, .other 9)])) v =
        MarkForRollback (some ctxFresh) v ∧
      AddPostCommitCallback (some (ctxFresh.derive [(5, .other 9)])) g v =
        AddPostCommitCallback (some ctxFresh) g v ∧
      AddPostRollbackCallback (some (ctxFresh.derive [(5, .other 9)])) g v =
        AddPostRollbackCallback (some ctxFresh) g v ∧
      FromContext (some (ctxFresh.derive [(5, .other 9)])) v = FromContext (some ctxFresh) v ∧
      Resolve sqlTxDriver (some (ctxFresh.derive [(5, .other 9)])) v =
        Resolve sqlTxDriver (some ctxFresh) v) ∧
    ∃ h w2 w3 r w4,
      FromContext (some ctxFresh) worldFresh = .ret (some h, none) worldFresh ∧
      AddPostRollbackCallback (some (ctxFresh.derive [(5, .other 9)])) (some 21) worldFresh =
        .ret none w2 ∧
      MarkForRollback (some (ctxFresh.derive [(5, .other 9)])) w2 = .ret () w3 ∧
      Resolve sqlTxDriver (some ctxFresh) w3 = .ret r w4 ∧
      w4.calls = w3.calls ++ [.txRollback h] ∧
      r = sqlTxDriver.txRollback w3.calls h ∧
      (r = none → w4.spawned = w3.spawned ++ [21]) :=
  ⟨by decide,
    record_shared_along_lineage sqlTxDriver .background ctxFresh worldIdle worldFresh
      [(5, .other 9)] 21 (by decide)⟩

end GoTransactions
